import Mathlib

/-!
Verification of the Statistical Distribution & Interactive Filtering Engine
of the optihome dashboard.

The embedded functions mirror the TypeScript source (`Statistics` component
file): `calculateHistogram`, `calculateMean`, `calculateMedian`, the mean /
median bin locator used by the chart components, `handleBinClick`'s subset
filter, and the Apply-to-Map bin-to-filter translator.

Modelling conventions:
* JavaScript numbers are modelled as exact rationals.  A value that is
  `null`, `undefined` or `NaN` is modelled as `none : Option ℚ`; every
  consumer in the source treats those three identically (they fail the
  validity predicate `v != null && !isNaN(v) && v > 0`).
* The one place where IEEE semantics is essential is the continuous binning
  when `binWidth = 0` (that is, `min = max`): there the source computes
  `Math.floor(0 / 0) = NaN` and `bins[NaN]++` touches none of the integer
  slots of the counts array.  This is modelled by `jsBinIndexCont` returning
  `none` when the width is zero, in which case no bin counter is incremented.
* `Math.floor`, `Math.ceil` are `Int.floor`, `Int.ceil`; `Math.round`
  (round half towards positive infinity) is `jsRound v = ⌊v + 1/2⌋`.
* JavaScript `Array.prototype.sort` with the numeric comparator produces the
  ascending sorted list, modelled by `List.insertionSort (· ≤ ·)`.
-/

/-- One JS number as fed to the statistics engine: `none` stands for
`null` / `undefined` / `NaN`. -/
abbrev JSNum := Option ℚ

/-- The shared cleaning predicate `v != null && !isNaN(v) && v > 0`
applied by every calculation (the "cleaned series"). -/
def cleanSeries (values : List JSNum) : List ℚ :=
  values.filterMap (fun v =>
    match v with
    | some x => if 0 < x then some x else none
    | none => none)

/-- `Math.min(...list)` for a non-empty list (`0` is never used: callers
guard on non-emptiness first). -/
def listMin : List ℚ → ℚ
  | [] => 0
  | x :: xs => xs.foldl min x

/-- `Math.max(...list)` for a non-empty list. -/
def listMax : List ℚ → ℚ
  | [] => 0
  | x :: xs => xs.foldl max x

/-- JavaScript `Math.round`: round half towards positive infinity. -/
def jsRound (v : ℚ) : ℤ := ⌊v + 1 / 2⌋

/-- `formatBinLabel` from the source: currency labels abbreviate to
thousands, other labels round the two bounds. -/
def formatBinLabel (s e : ℚ) (isPrice : Bool) : String :=
  if isPrice then
    toString (jsRound (s / 1000)) ++ "k-" ++ toString (jsRound (e / 1000)) ++ "k"
  else
    toString (jsRound s) ++ "-" ++ toString (jsRound e)

/-- `HistogramData` from the source. -/
structure HistogramData where
  bin : String
  binStart : ℚ
  binEnd : ℚ
  count : ℕ
deriving DecidableEq, Repr

/-- A throw-away bin used as the default of `List.getD`. -/
def dummyBin : HistogramData := ⟨"", 0, 0, 0⟩

/-- The result record of `calculateHistogram`. -/
structure HistResult where
  histogram : List HistogramData
  min : ℚ
  max : ℚ
deriving DecidableEq, Repr

/-- Count of cleaned values that the discrete path books under integer `i`
(the source rounds each value with `Math.round` and increments a map). -/
def discreteCount (filtered : List ℚ) (i : ℤ) : ℕ :=
  (filtered.filter (fun v => jsRound v = i)).length

/-- The continuous bin index of the source:
`Math.floor((value - min) / binWidth)` clamped to `numBins - 1`.
When `binWidth = 0` the division is `0 / 0 = NaN` in JS and
`bins[NaN]++` increments no integer slot; this is the `none` case. -/
def jsBinIndexCont (mn binWidth : ℚ) (numBins : ℕ) (v : ℚ) : Option ℤ :=
  if binWidth = 0 then none
  else
    let bi := ⌊(v - mn) / binWidth⌋
    some (if (numBins : ℤ) ≤ bi then (numBins : ℤ) - 1 else bi)

/-- `calculateHistogram` from the source.  The source returns the empty
result both when the raw array is empty and when the filtered array is
empty; the former implies the latter, so a single test on the cleaned
series is faithful. -/
def calculateHistogram (values : List JSNum) (numBins : ℕ) (discrete : Bool)
    (isPrice : Bool) : HistResult :=
  let filtered := cleanSeries values
  if filtered = [] then ⟨[], 0, 0⟩
  else
    let mn := listMin filtered
    let mx := listMax filtered
    if discrete = true ∧ mn.den = 1 ∧ mx.den = 1 then
      let lo := ⌊mn⌋
      let hi := ⌈mx⌉
      let histogram := (List.range (hi - lo + 1).toNat).map (fun (k : ℕ) =>
        let i := lo + (k : ℤ)
        ⟨toString i, (i : ℚ), (i : ℚ) + 1, discreteCount filtered i⟩)
      ⟨histogram, mn, mx⟩
    else
      let binWidth := (mx - mn) / (numBins : ℚ)
      let histogram := (List.range numBins).map (fun (k : ℕ) =>
        let s := mn + (k : ℚ) * binWidth
        let e := mn + ((k : ℚ) + 1) * binWidth
        ⟨formatBinLabel s e isPrice, s, e,
          (filtered.filter
            (fun v => jsBinIndexCont mn binWidth numBins v = some (k : ℤ))).length⟩)
      ⟨histogram, mn, mx⟩

/-- `calculateMean` from the source. -/
def calculateMean (values : List JSNum) : ℚ :=
  let filtered := cleanSeries values
  if filtered = [] then 0
  else filtered.sum / (filtered.length : ℚ)

/-- The cleaned series sorted ascending, as by the source's
`.sort((a, b) => a - b)`. -/
def sortedClean (values : List JSNum) : List ℚ :=
  List.insertionSort (· ≤ ·) (cleanSeries values)

/-- `calculateMedian` from the source. -/
def calculateMedian (values : List JSNum) : ℚ :=
  let filtered := sortedClean values
  if filtered = [] then 0
  else
    let mid := filtered.length / 2
    if filtered.length % 2 = 0 then
      (filtered.getD (mid - 1) 0 + filtered.getD mid 0) / 2
    else filtered.getD mid 0

/-- The mean/median bin locator used identically by every chart component:
`histogram.find(h => v >= h.binStart && v < h.binEnd) ||
 (v >= last.binStart ? last : first)` when the histogram is non-empty,
`null` otherwise. -/
def findBin (hist : List HistogramData) (v : ℚ) : Option HistogramData :=
  if hist = [] then none
  else
    match hist.find? (fun b => decide (b.binStart ≤ v) && decide (v < b.binEnd)) with
    | some b => some b
    | none =>
        if (hist.getLastD dummyBin).binStart ≤ v then some (hist.getLastD dummyBin)
        else some (hist.headD dummyBin)

/-- The numeric fields of a `Property` record that the statistics engine
reads; `none` stands for a missing (`null`/`undefined`) or `NaN` field. -/
structure Property where
  price_eur : Option ℚ
  area_m2 : Option ℚ
  rooms : Option ℚ
  year_built : Option ℚ
  price_per_m2 : Option ℚ
deriving DecidableEq, Repr

/-- The subset computation of `handleBinClick`: keep a property iff its
attribute value is valid (non-null, non-NaN, strictly positive) and lies
in `[binStart, binEnd)`. -/
def handleBinClickFilter (getValue : Property → Option ℚ) (bin : HistogramData)
    (props : List Property) : List Property :=
  props.filter (fun p =>
    match getValue p with
    | none => false
    | some v =>
        if v ≤ 0 then false
        else decide (bin.binStart ≤ v) && decide (v < bin.binEnd))

/-- The attribute identity of a selected bin (`selectedBin.filterKey`). -/
inductive FilterKey where
  | price
  | area
  | rooms
  | year
  | price_per_m2
deriving DecidableEq, Repr

/-- The partial filter record built by the Apply-to-Map handler. -/
structure FilterDelta where
  min_price : Option ℤ
  max_price : Option ℤ
  min_area : Option ℤ
  max_area : Option ℤ
  min_rooms : Option ℤ
  max_rooms : Option ℤ
  min_year : Option ℤ
  max_year : Option ℤ
deriving DecidableEq, Repr

/-- The delta with no keys set (`const newFilters: any = {}`). -/
def emptyDelta : FilterDelta := ⟨none, none, none, none, none, none, none, none⟩

/-- The dataset-wide average area of the Apply-to-Map handler:
`properties.reduce((sum, p) => sum + (p.area_m2 || 0), 0) / properties.length`.
For the empty list JS yields `0 / 0 = NaN` and the guard `avgArea > 0`
fails; in ℚ the quotient is `0` and the same guard fails, so the branch
behaviour coincides. -/
def avgArea (props : List Property) : ℚ :=
  (props.foldl (fun s p => s + p.area_m2.getD 0) 0) / (props.length : ℚ)

/-- The Apply-to-Map click handler's translation of a selected bin into a
filter delta, branching on `selectedBin.filterKey`. -/
def binToFilter (key : FilterKey) (bin : HistogramData) (props : List Property) :
    FilterDelta :=
  match key with
  | .price =>
      ⟨some ⌊bin.binStart⌋, some ⌈bin.binEnd⌉, none, none, none, none, none, none⟩
  | .area =>
      ⟨none, none, some ⌊bin.binStart⌋, some ⌈bin.binEnd⌉, none, none, none, none⟩
  | .rooms =>
      ⟨none, none, none, none, some ⌊bin.binStart⌋, some ⌈bin.binEnd⌉, none, none⟩
  | .year =>
      ⟨none, none, none, none, none, none, some ⌊bin.binStart⌋, some ⌈bin.binEnd⌉⟩
  | .price_per_m2 =>
      let a := avgArea props
      if 0 < a then
        ⟨some ⌊bin.binStart * a * (8 / 10)⌋, some ⌈bin.binEnd * a * (12 / 10)⌉,
          none, none, none, none, none, none⟩
      else emptyDelta

/-- The half-open membership test `rangeStart <= v < rangeEnd` of a bin. -/
def binContains (v : ℚ) (b : HistogramData) : Prop :=
  b.binStart ≤ v ∧ v < b.binEnd

instance (v : ℚ) (b : HistogramData) : Decidable (binContains v b) :=
  inferInstanceAs (Decidable (_ ∧ _))

/-! ## Helper lemmas -/

theorem foldl_min_le_init (a : ℚ) (l : List ℚ) : l.foldl min a ≤ a := by
  induction l generalizing a with
  | nil => simp
  | cons b t ih =>
      calc t.foldl min (min a b) ≤ min a b := ih (min a b)
        _ ≤ a := min_le_left a b

theorem init_le_foldl_max (a : ℚ) (l : List ℚ) : a ≤ l.foldl max a := by
  induction l generalizing a with
  | nil => simp
  | cons b t ih =>
      calc a ≤ max a b := le_max_left a b
        _ ≤ t.foldl max (max a b) := ih (max a b)

theorem listMin_le_listMax (l : List ℚ) : listMin l ≤ listMax l := by
  cases l with
  | nil => simp [listMin, listMax]
  | cons x xs =>
      calc listMin (x :: xs) = xs.foldl min x := rfl
        _ ≤ x := foldl_min_le_init x xs
        _ ≤ xs.foldl max x := init_le_foldl_max x xs
        _ = listMax (x :: xs) := rfl

/-- Unfolding of `calculateHistogram` on the discrete path. -/
theorem calculateHistogram_discrete (values : List JSNum) (numBins : ℕ) (isPrice : Bool)
    (hne : cleanSeries values ≠ [])
    (h1 : (listMin (cleanSeries values)).den = 1)
    (h2 : (listMax (cleanSeries values)).den = 1) :
    calculateHistogram values numBins true isPrice =
      ⟨(List.range
          ((⌈listMax (cleanSeries values)⌉ - ⌊listMin (cleanSeries values)⌋ + 1).toNat)).map
        (fun (k : ℕ) =>
          ⟨toString (⌊listMin (cleanSeries values)⌋ + k),
            ((⌊listMin (cleanSeries values)⌋ + k : ℤ) : ℚ),
            ((⌊listMin (cleanSeries values)⌋ + k : ℤ) : ℚ) + 1,
            discreteCount (cleanSeries values) (⌊listMin (cleanSeries values)⌋ + k)⟩),
        listMin (cleanSeries values), listMax (cleanSeries values)⟩ := by
  simp [calculateHistogram, hne, h1, h2]

/-! ## Claim theorems -/

/-- Claim C1 (refuting evaluation): for the input `[5, 5]` the cleaned series
has length 2, yet the continuous histogram path (`min = max = 5`, so
`binWidth = 0` and the JS bin index is `NaN`) produces 15 bins whose counts
sum to 0 — every value is dropped, contradicting the claimed invariant
`sum(counts) = len(cleanedSeries)`. -/
theorem calculateHistogram_drops_all_values_when_min_eq_max :
    ((calculateHistogram [some 5, some 5] 15 false false).histogram.map
      (fun b => b.count)).sum = 0 ∧
    (cleanSeries [some 5, some 5]).length = 2 ∧
    (calculateHistogram [some 5, some 5] 15 false false).histogram.length = 15 := by
  with_unfolding_all decide

/-- Claim C5 (refuting evaluation): for the input `[7]` the continuous path
yields `min = max = 7` and 15 bins, each with the empty range `[7, 7)` and
count 0.  The value `7` (the series maximum) is not counted in the last
bin — it is not counted anywhere — and the union of the half-open bin
ranges is empty, so it does not cover `[min, max] = {7}`. -/
theorem calculateHistogram_last_bin_misses_max_when_min_eq_max :
    (calculateHistogram [some 7] 15 false false).min = 7 ∧
    (calculateHistogram [some 7] 15 false false).max = 7 ∧
    (calculateHistogram [some 7] 15 false false).histogram.length = 15 ∧
    ((calculateHistogram [some 7] 15 false false).histogram.map
      (fun b => b.count)).sum = 0 ∧
    ((calculateHistogram [some 7] 15 false false).histogram.getD 14 dummyBin).binStart = 7 ∧
    ((calculateHistogram [some 7] 15 false false).histogram.getD 14 dummyBin).binEnd = 7 ∧
    ((calculateHistogram [some 7] 15 false false).histogram.getD 14 dummyBin).count = 0 := by
  with_unfolding_all decide

/-- Claim C6: `calculateMean` is the arithmetic average of the cleaned
series; `calculateMedian` is the middle element of the ascending-sorted
cleaned series for odd length, the average of the two middle elements for
even length; and concretely `median [100,200,300] = 200`,
`median [100,200,300,400] = 250`, `mean [0,100,200] = 150` (the `0` is
excluded by the positivity rule). -/
theorem calculateMean_median_spec :
    calculateMedian [some 100, some 200, some 300] = 200 ∧
    calculateMedian [some 100, some 200, some 300, some 400] = 250 ∧
    calculateMean [some 0, some 100, some 200] = 150 ∧
    (∀ values : List JSNum, cleanSeries values ≠ [] →
      calculateMean values = (cleanSeries values).sum / ((cleanSeries values).length : ℚ)) ∧
    (∀ values : List JSNum,
      (sortedClean values).Sorted (· ≤ ·) ∧ List.Perm (sortedClean values) (cleanSeries values)) ∧
    (∀ values : List JSNum, ∀ k : ℕ, (cleanSeries values).length = 2 * k + 1 →
      calculateMedian values = (sortedClean values).getD k 0) ∧
    (∀ values : List JSNum, ∀ k : ℕ, 0 < k → (cleanSeries values).length = 2 * k →
      calculateMedian values =
        ((sortedClean values).getD (k - 1) 0 + (sortedClean values).getD k 0) / 2) := by
  refine ⟨by with_unfolding_all decide, by with_unfolding_all decide, by with_unfolding_all decide, ?_, ?_, ?_, ?_⟩
  · intro values hne
    simp [calculateMean, hne]
  · intro values
    exact ⟨List.sorted_insertionSort _ _, List.perm_insertionSort _ _⟩
  · intro values k hlen
    have hlen' : (sortedClean values).length = 2 * k + 1 :=
      (List.perm_insertionSort _ _).length_eq.trans hlen
    have hne : sortedClean values ≠ [] := by
      intro h
      rw [h] at hlen'
      simp at hlen'
    simp only [calculateMedian]
    rw [hlen', if_neg hne, if_neg (by omega : ¬ (2 * k + 1) % 2 = 0)]
    have hmid : (2 * k + 1) / 2 = k := by omega
    rw [hmid]
  · intro values k hk hlen
    have hlen' : (sortedClean values).length = 2 * k :=
      (List.perm_insertionSort _ _).length_eq.trans hlen
    have hne : sortedClean values ≠ [] := by
      intro h
      rw [h] at hlen'
      simp at hlen'
      omega
    simp only [calculateMedian]
    rw [hlen', if_neg hne, if_pos (by omega : (2 * k) % 2 = 0)]
    have hmid : (2 * k) / 2 = k := by omega
    rw [hmid]

/-- Witness for C6: the general mean clause applied at `[2, 4]`. -/
theorem calculateMean_median_spec_witness :
    calculateMean [some 2, some 4] =
      (cleanSeries [some 2, some 4]).sum / ((cleanSeries [some 2, some 4]).length : ℚ) :=
  calculateMean_median_spec.2.2.2.1 [some 2, some 4] (by with_unfolding_all decide)

/-- Claim C8: for each directly-stored attribute, the Apply-to-Map delta is
`{min: floor(rangeStart), max: ceil(rangeEnd)}` on that attribute's own
filter keys and every other key is absent. -/
theorem binToFilter_direct_attributes (bin : HistogramData) (props : List Property) :
    binToFilter .price bin props =
      ⟨some ⌊bin.binStart⌋, some ⌈bin.binEnd⌉, none, none, none, none, none, none⟩ ∧
    binToFilter .area bin props =
      ⟨none, none, some ⌊bin.binStart⌋, some ⌈bin.binEnd⌉, none, none, none, none⟩ ∧
    binToFilter .rooms bin props =
      ⟨none, none, none, none, some ⌊bin.binStart⌋, some ⌈bin.binEnd⌉, none, none⟩ ∧
    binToFilter .year bin props =
      ⟨none, none, none, none, none, none, some ⌊bin.binStart⌋, some ⌈bin.binEnd⌉⟩ :=
  ⟨rfl, rfl, rfl, rfl⟩

/-- Claim C9: an input whose cleaned series is empty yields the empty
histogram with `min = max = 0` (for every bin count, discreteness and
currency flag), and mean and median are both `0`. -/
theorem empty_cleaned_series_degenerates (values : List JSNum) (numBins : ℕ)
    (discrete isPrice : Bool) (h : cleanSeries values = []) :
    calculateHistogram values numBins discrete isPrice = ⟨[], 0, 0⟩ ∧
    calculateMean values = 0 ∧
    calculateMedian values = 0 := by
  refine ⟨?_, ?_, ?_⟩
  · simp [calculateHistogram, h]
  · simp [calculateMean, h]
  · simp [calculateMedian, sortedClean, h]

/-- Witness for C9: a list of only invalid values (`0`, `null`, `-1`). -/
theorem empty_cleaned_series_degenerates_witness :
    cleanSeries [some 0, none, some (-1)] = [] ∧
    calculateMean [some 0, none, some (-1)] = 0 :=
  ⟨by with_unfolding_all decide,
   (empty_cleaned_series_degenerates [some 0, none, some (-1)] 15 false false
      (by with_unfolding_all decide)).2.1⟩

/-- Claim C2: applying a price-per-area bin selection emits
`min_price = floor(binStart * avgArea * 0.8)` and
`max_price = ceil(binEnd * avgArea * 1.2)` with `avgArea` the average area
over the full property list; when that average is zero (or unavailable,
the empty-list quotient) no key at all is emitted; and the delta never
carries a rooms, area, or year key. -/
theorem binToFilter_price_per_m2_spec (bin : HistogramData) (props : List Property) :
    (0 < avgArea props →
      binToFilter .price_per_m2 bin props =
        ⟨some ⌊bin.binStart * avgArea props * (8 / 10)⌋,
         some ⌈bin.binEnd * avgArea props * (12 / 10)⌉,
         none, none, none, none, none, none⟩) ∧
    (avgArea props ≤ 0 → binToFilter .price_per_m2 bin props = emptyDelta) ∧
    (binToFilter .price_per_m2 bin props).min_area = none ∧
    (binToFilter .price_per_m2 bin props).max_area = none ∧
    (binToFilter .price_per_m2 bin props).min_rooms = none ∧
    (binToFilter .price_per_m2 bin props).max_rooms = none ∧
    (binToFilter .price_per_m2 bin props).min_year = none ∧
    (binToFilter .price_per_m2 bin props).max_year = none := by
  have hd : binToFilter .price_per_m2 bin props =
      if 0 < avgArea props then
        ⟨some ⌊bin.binStart * avgArea props * (8 / 10)⌋,
         some ⌈bin.binEnd * avgArea props * (12 / 10)⌉,
         none, none, none, none, none, none⟩
      else emptyDelta := rfl
  refine ⟨fun h => ?_, fun h => ?_, ?_, ?_, ?_, ?_, ?_, ?_⟩
  · rw [hd, if_pos h]
  · rw [hd, if_neg (not_lt.mpr h)]
  all_goals rw [hd]
  all_goals by_cases h : 0 < avgArea props <;> simp [h, emptyDelta]

set_option maxRecDepth 4000 in
/-- Witness for C2: one property of area 50, bin `[10, 20)`, giving
`min_price = floor(10 * 50 * 0.8) = 400` and
`max_price = ceil(20 * 50 * 1.2) = 1200`. -/
theorem binToFilter_price_per_m2_spec_witness :
    0 < avgArea [⟨none, some 50, none, none, none⟩] ∧
    binToFilter .price_per_m2 ⟨"", 10, 20, 3⟩ [⟨none, some 50, none, none, none⟩] =
      ⟨some 400, some 1200, none, none, none, none, none, none⟩ :=
  ⟨by with_unfolding_all decide,
   ((binToFilter_price_per_m2_spec ⟨"", 10, 20, 3⟩ [⟨none, some 50, none, none, none⟩]).1
      (by with_unfolding_all decide)).trans (by with_unfolding_all decide)⟩

/-- Claim C7: a bin click selects exactly the properties whose attribute
value is valid (non-null, non-NaN, strictly positive) and lies in
`[rangeStart, rangeEnd)`; and on the discrete rooms bin `[3, 4)` with
integer room counts this is exactly `rooms = 3`. -/
theorem handleBinClick_selects_bin_members :
    (∀ (getValue : Property → Option ℚ) (bin : HistogramData) (props : List Property)
        (p : Property),
      p ∈ handleBinClickFilter getValue bin props ↔
        p ∈ props ∧ ∃ v, getValue p = some v ∧ 0 < v ∧ bin.binStart ≤ v ∧ v < bin.binEnd) ∧
    (∀ (bin : HistogramData) (props : List Property),
      bin.binStart = 3 → bin.binEnd = 4 →
      (∀ p ∈ props, ∀ v : ℚ, p.rooms = some v → v.den = 1) →
      handleBinClickFilter (fun p => p.rooms) bin props =
        props.filter (fun p => p.rooms = some 3)) := by
  constructor
  · intro getValue bin props p
    simp only [handleBinClickFilter, List.mem_filter]
    constructor
    · rintro ⟨hp, hcond⟩
      refine ⟨hp, ?_⟩
      cases hgv : getValue p with
      | none =>
          simp only [hgv] at hcond
          exact absurd hcond (by simp)
      | some v =>
          simp only [hgv] at hcond
          by_cases hv : v ≤ 0
          · rw [if_pos hv] at hcond
            simp at hcond
          · rw [if_neg hv] at hcond
            simp only [Bool.and_eq_true, decide_eq_true_eq] at hcond
            exact ⟨v, rfl, lt_of_not_le hv, hcond.1, hcond.2⟩
    · rintro ⟨hp, v, hgv, hv, h1, h2⟩
      refine ⟨hp, ?_⟩
      simp only [hgv]
      rw [if_neg (not_le.mpr hv)]
      simp [h1, h2]
  · intro bin props h3 h4 hint
    apply List.filter_congr
    intro p hp
    cases hr : p.rooms with
    | none => simp [hr]
    | some v =>
        have hden : v.den = 1 := hint p hp v hr
        have hv : (v.num : ℚ) = v := Rat.coe_int_num_of_den_eq_one hden
        simp only [hr, Option.some.injEq]
        by_cases hv0 : v ≤ 0
        · rw [if_pos hv0]
          have hne3 : ¬ v = 3 := by
            intro h
            rw [h] at hv0
            norm_num at hv0
          exact (decide_eq_false hne3).symm
        · rw [if_neg hv0, h3, h4, ← Bool.decide_and]
          apply decide_eq_decide.mpr
          by_cases heq : v = 3
          · subst heq
            exact iff_of_true ⟨by norm_num, by norm_num⟩ rfl
          · refine iff_of_false ?_ heq
            rintro ⟨ha, hb⟩
            apply heq
            have ha' : (3 : ℚ) ≤ (v.num : ℚ) := by rw [hv]; exact ha
            have hb' : ((v.num : ℚ)) < 4 := by rw [hv]; exact hb
            have ha2 : (3 : ℤ) ≤ v.num := by exact_mod_cast ha'
            have hb2 : v.num < (4 : ℤ) := by exact_mod_cast hb'
            have hnum : v.num = 3 := by omega
            rw [← hv, hnum]
            norm_num

/-- Witness for C7: rooms bin `[3, 4)` over properties with 3 and 5 rooms
keeps exactly the 3-room property. -/
theorem handleBinClick_selects_bin_members_witness :
    handleBinClickFilter (fun p => p.rooms) ⟨"3", 3, 4, 1⟩
        [⟨none, none, some 3, none, none⟩, ⟨none, none, some 5, none, none⟩] =
      [⟨none, none, some 3, none, none⟩] :=
  (handleBinClick_selects_bin_members.2 ⟨"3", 3, 4, 1⟩
      [⟨none, none, some 3, none, none⟩, ⟨none, none, some 5, none, none⟩] rfl rfl
      (by
        intro p hp v hv
        simp only [List.mem_cons, List.not_mem_nil, or_false] at hp
        rcases hp with rfl | rfl
        · injection hv with h
          subst h
          with_unfolding_all decide
        · injection hv with h
          subst h
          with_unfolding_all decide)).trans
    (by with_unfolding_all decide)

/-- Claim C3: the bin locator returns the first bin with
`rangeStart <= v < rangeEnd` when one exists; otherwise the last bin when
`v` is at least the last bin's `rangeStart`, else the first bin; it is
`none` exactly when the histogram is empty. -/
theorem findBin_locator (hist : List HistogramData) (v : ℚ) :
    (findBin hist v = none ↔ hist = []) ∧
    (∀ i : ℕ, i < hist.length → binContains v (hist.getD i dummyBin) →
      (∀ j : ℕ, j < i → ¬ binContains v (hist.getD j dummyBin)) →
      findBin hist v = some (hist.getD i dummyBin)) ∧
    (hist ≠ [] → (∀ b ∈ hist, ¬ binContains v b) →
      (hist.getLastD dummyBin).binStart ≤ v →
      findBin hist v = some (hist.getLastD dummyBin)) ∧
    (hist ≠ [] → (∀ b ∈ hist, ¬ binContains v b) →
      v < (hist.getLastD dummyBin).binStart →
      findBin hist v = some (hist.headD dummyBin)) := by
  have hpb : ∀ b : HistogramData,
      (decide (b.binStart ≤ v) && decide (v < b.binEnd)) = true ↔ binContains v b := by
    intro b
    simp [binContains]
  refine ⟨⟨?_, ?_⟩, ?_, ?_, ?_⟩
  · intro h
    by_contra hne
    rw [findBin, if_neg hne] at h
    cases hf : hist.find? (fun b => decide (b.binStart ≤ v) && decide (v < b.binEnd)) with
    | some b => simp [hf] at h
    | none =>
        simp only [hf] at h
        split_ifs at h
  · intro h
    subst h
    rfl
  · intro i hi hbin hfirst
    have hne : hist ≠ [] := List.ne_nil_of_length_pos (by omega)
    have hgd : hist.getD i dummyBin = hist[i] := by
      rw [List.getD_eq_getElem?_getD, List.getElem?_eq_getElem hi]
      rfl
    have hfind : hist.find? (fun b => decide (b.binStart ≤ v) && decide (v < b.binEnd)) =
        some (hist.getD i dummyBin) := by
      rw [List.find?_eq_some_iff_getElem]
      refine ⟨(hpb _).mpr hbin, i, hi, hgd.symm, ?_⟩
      intro j hj
      have hjlen : j < hist.length := lt_trans hj hi
      have hgdj : hist.getD j dummyBin = hist[j] := by
        rw [List.getD_eq_getElem?_getD, List.getElem?_eq_getElem hjlen]
        rfl
      have hnc := hfirst j hj
      rw [hgdj] at hnc
      simp only [Bool.not_eq_eq_eq_not, Bool.not_true]
      rw [← Bool.not_eq_true]
      intro hc
      exact hnc ((hpb _).mp hc)
    rw [findBin, if_neg hne]
    simp only [hfind]
  · intro hne hno hle
    have hfind : hist.find? (fun b => decide (b.binStart ≤ v) && decide (v < b.binEnd)) =
        none := by
      rw [List.find?_eq_none]
      intro x hx hc
      exact hno x hx ((hpb _).mp hc)
    rw [findBin, if_neg hne]
    simp only [hfind]
    rw [if_pos hle]
  · intro hne hno hlt
    have hfind : hist.find? (fun b => decide (b.binStart ≤ v) && decide (v < b.binEnd)) =
        none := by
      rw [List.find?_eq_none]
      intro x hx hc
      exact hno x hx ((hpb _).mp hc)
    rw [findBin, if_neg hne]
    simp only [hfind]
    rw [if_neg (not_le.mpr hlt)]

/-- Witness for C3: on the histogram `[[0,1), [1,2)]` the value `3/2` is
located in the second bin, and the empty histogram locates nothing. -/
theorem findBin_locator_witness :
    findBin [⟨"a", 0, 1, 2⟩, ⟨"b", 1, 2, 0⟩] (3 / 2) = some ⟨"b", 1, 2, 0⟩ ∧
    findBin [] (3 / 2) = none :=
  ⟨((findBin_locator [⟨"a", 0, 1, 2⟩, ⟨"b", 1, 2, 0⟩] (3 / 2)).2.1 1 (by decide)
      (by with_unfolding_all decide)
      (fun j hj => by
        have hj0 : j = 0 := by omega
        subst hj0
        with_unfolding_all decide)).trans
      (by with_unfolding_all decide),
   (findBin_locator [] (3 / 2)).1.mpr rfl⟩

/-- Claim C4: when the cleaned series is non-empty and its minimum and
maximum are whole numbers, the discrete histogram has exactly
`ceil(max) - floor(min) + 1` bins and the `k`-th bin has range
`[floor(min) + k, floor(min) + k + 1)` — one bin per integer, gaps
included. -/
theorem discrete_histogram_integer_bins (values : List JSNum) (numBins : ℕ) (isPrice : Bool)
    (hne : cleanSeries values ≠ [])
    (h1 : (listMin (cleanSeries values)).den = 1)
    (h2 : (listMax (cleanSeries values)).den = 1) :
    ((calculateHistogram values numBins true isPrice).histogram.length : ℤ) =
      ⌈listMax (cleanSeries values)⌉ - ⌊listMin (cleanSeries values)⌋ + 1 ∧
    (∀ k : ℕ, k < (calculateHistogram values numBins true isPrice).histogram.length →
      ((calculateHistogram values numBins true isPrice).histogram.getD k dummyBin).binStart =
        ((⌊listMin (cleanSeries values)⌋ + (k : ℤ) : ℤ) : ℚ) ∧
      ((calculateHistogram values numBins true isPrice).histogram.getD k dummyBin).binEnd =
        ((⌊listMin (cleanSeries values)⌋ + (k : ℤ) : ℤ) : ℚ) + 1) := by
  have hmm : listMin (cleanSeries values) ≤ listMax (cleanSeries values) :=
    listMin_le_listMax _
  have hfl : ⌊listMin (cleanSeries values)⌋ ≤ ⌈listMax (cleanSeries values)⌉ :=
    le_trans (Int.floor_mono hmm) (Int.floor_le_ceil _)
  rw [calculateHistogram_discrete values numBins isPrice hne h1 h2]
  constructor
  · simp only [List.length_map, List.length_range]
    rw [Int.toNat_of_nonneg (by omega)]
  · intro k hk
    simp only [List.length_map, List.length_range] at hk
    constructor <;>
      simp [List.getD_eq_getElem?_getD, List.getElem?_map, List.getElem?_range hk]

/-- Witness for C4: cleaned series `[2, 5]` gives four discrete bins and
the second bin starts at `3`. -/
theorem discrete_histogram_integer_bins_witness :
    cleanSeries [some 2, some 5] ≠ [] ∧
    ((calculateHistogram [some 2, some 5] 15 true false).histogram.length : ℤ) = 4 ∧
    ((calculateHistogram [some 2, some 5] 15 true false).histogram.getD 1 dummyBin).binStart = 3 :=
  ⟨by with_unfolding_all decide,
   (discrete_histogram_integer_bins [some 2, some 5] 15 false
      (by with_unfolding_all decide) (by with_unfolding_all decide)
      (by with_unfolding_all decide)).1.trans (by with_unfolding_all decide),
   ((discrete_histogram_integer_bins [some 2, some 5] 15 false
      (by with_unfolding_all decide) (by with_unfolding_all decide)
      (by with_unfolding_all decide)).2 1
      (by with_unfolding_all decide)).1.trans (by with_unfolding_all decide)⟩

/-- Claim C10: on the discrete path each cleaned value is counted in the
bin numbered `round(v)` (half rounds up); an integer value lands in the
bin `[v, v+1)` that contains it, while a non-integer value with fractional
part at least one half is booked one bin above its containing bin
`[floor(v), floor(v)+1)`. -/
theorem discrete_bins_count_rounded (values : List JSNum) (numBins : ℕ) (isPrice : Bool)
    (hne : cleanSeries values ≠ [])
    (h1 : (listMin (cleanSeries values)).den = 1)
    (h2 : (listMax (cleanSeries values)).den = 1) :
    (∀ k : ℕ, k < (calculateHistogram values numBins true isPrice).histogram.length →
      ((calculateHistogram values numBins true isPrice).histogram.getD k dummyBin).count =
        ((cleanSeries values).filter
          (fun v => jsRound v = ⌊listMin (cleanSeries values)⌋ + (k : ℤ))).length) ∧
    (∀ v : ℚ, v.den = 1 → jsRound v = ⌊v⌋) ∧
    (∀ v : ℚ, v.den ≠ 1 → 1 / 2 ≤ Int.fract v → jsRound v = ⌊v⌋ + 1) := by
  refine ⟨?_, ?_, ?_⟩
  · intro k hk
    rw [calculateHistogram_discrete values numBins isPrice hne h1 h2] at hk ⊢
    simp only [List.length_map, List.length_range] at hk
    simp [List.getD_eq_getElem?_getD, List.getElem?_map, List.getElem?_range hk,
      discreteCount]
  · intro v hden
    have hv : (v.num : ℚ) = v := Rat.coe_int_num_of_den_eq_one hden
    have hhalf : ⌊(1 / 2 : ℚ)⌋ = 0 := by with_unfolding_all decide
    rw [jsRound, ← hv, Int.floor_int_add, Int.floor_intCast, hhalf, add_zero]
  · intro v hden hfrac
    have hlt : Int.fract v < 1 := Int.fract_lt_one v
    have hid : (⌊v⌋ : ℚ) + Int.fract v = v := Int.floor_add_fract v
    rw [jsRound, Int.floor_eq_iff]
    constructor
    · push_cast
      linarith
    · push_cast
      linarith

/-- Witness for C10: cleaned series `[1, 5/2, 4]` has discrete bins for
the integers 1 to 4; the value `5/2` is counted in bin `3` (index 2), not
in its containing bin `[2, 3)` (index 1). -/
theorem discrete_bins_count_rounded_witness :
    cleanSeries [some 1, some (5 / 2), some 4] ≠ [] ∧
    ((calculateHistogram [some 1, some (5 / 2), some 4] 15 true false).histogram.getD 2
      dummyBin).count = 1 ∧
    ((calculateHistogram [some 1, some (5 / 2), some 4] 15 true false).histogram.getD 1
      dummyBin).count = 0 :=
  ⟨by with_unfolding_all decide,
   ((discrete_bins_count_rounded [some 1, some (5 / 2), some 4] 15 false
      (by with_unfolding_all decide) (by with_unfolding_all decide)
      (by with_unfolding_all decide)).1 2
      (by with_unfolding_all decide)).trans (by with_unfolding_all decide),
   ((discrete_bins_count_rounded [some 1, some (5 / 2), some 4] 15 false
      (by with_unfolding_all decide) (by with_unfolding_all decide)
      (by with_unfolding_all decide)).1 1
      (by with_unfolding_all decide)).trans (by with_unfolding_all decide)⟩
